import Mathlib

/-!
Verification of the Seoul subway congestion dashboard's ETL and aggregation
pipeline (files `src/etl.py`, `src/data.py`, `src/metrics.py`).

Conventions of the shallow embedding:
- a pandas DataFrame of long records is a `List` of structures;
- a float cell that may be NaN is an `Option ℚ` (`none` encodes NaN / absent);
- Python string comparison (used by pandas when sorting keys) is code-point
  lexicographic, embedded as `chars_lt` over `String.data`;
- `pd.to_numeric(errors='coerce')` is embedded for the plain decimal subset
  (optional sign, digits, at most one dot), which covers congestion cells;
  anything else coerces to NaN (`none`);
- stable pandas sorts (`sort_values` on several keys uses a stable lexsort,
  `Series.nlargest` with the default `keep='first'` is stable) are embedded
  with `List.insertionSort`, which is stable.
-/

/-! ## Generic string / digit helpers -/

/-- Numeric value of a digit string, as `int()` reads a group of digits. -/
def digitsToNat (ds : List Char) : Nat :=
  ds.foldl (fun n c => n * 10 + (c.toNat - 48)) 0

/-- Code-point lexicographic strict order on character lists: Python's
string `<`, which pandas uses when sorting string keys. -/
def chars_lt : List Char → List Char → Bool
  | [], [] => false
  | [], _ :: _ => true
  | _ :: _, [] => false
  | a :: as, b :: bs =>
    if a.toNat < b.toNat then true
    else if b.toNat < a.toNat then false
    else chars_lt as bs

def str_lt (a b : String) : Bool := chars_lt a.data b.data

def str_le (a b : String) : Bool := !(chars_lt b.data a.data)

def str_le_rel (a b : String) : Prop := str_le a b = true

instance : DecidableRel str_le_rel := fun _ _ => inferInstanceAs (Decidable (_ = true))

/-- Python `str.strip()`: drop leading and trailing whitespace characters. -/
def strip_chars (l : List Char) : List Char :=
  ((l.dropWhile Char.isWhitespace).reverse.dropWhile Char.isWhitespace).reverse

def strip (s : String) : String := ⟨strip_chars s.data⟩

/-! ## etl.py: time-column detection and normalization -/

/-- The regex `(\d+)시(\d+)분` applied with `re.match` (anchored at the start
only): one or more digits, `시`, one or more digits, `분`, anything after.
Returns the two digit groups. Used by both `get_time_columns` and
`normalize_time_slot`, whose patterns coincide. -/
def parse_time (l : List Char) : Option (Nat × Nat) :=
  let ds1 := l.takeWhile Char.isDigit
  let r1 := l.dropWhile Char.isDigit
  if ds1.isEmpty then none
  else
    match r1 with
    | '시' :: r2 =>
      let ds2 := r2.takeWhile Char.isDigit
      let r3 := r2.dropWhile Char.isDigit
      if ds2.isEmpty then none
      else
        match r3 with
        | '분' :: _ => some (digitsToNat ds1, digitsToNat ds2)
        | _ => none
    | _ => none

def is_time_col (s : String) : Bool := (parse_time s.data).isSome

/-- Source `get_time_columns`: the header names matching the time pattern, in header
order.  The source also prints the count; printing is not modelled. -/
def get_time_columns (headers : List String) : List String :=
  headers.filter is_time_col

/-- Python's `f"{n:02d}"`. -/
def two_digit (n : Nat) : String := if n < 10 then "0" ++ toString n else toString n

/-- Source `normalize_time_slot`: `'5시30분' → '05:30'`; a non-matching string is
returned unchanged. -/
def normalize_time_slot (s : String) : String :=
  match parse_time s.data with
  | some hm => two_digit hm.1 ++ ":" ++ two_digit hm.2
  | none => s

/-- Source `create_time_order_map`: each time column maps to its normalized form and
its positional index among the detected time columns. -/
def create_time_order_map (time_cols : List String) : List (String × String × Nat) :=
  time_cols.enum.map (fun ic => (ic.2, normalize_time_slot ic.2, ic.1))

/-! ## etl.py: wide rows and unpivot -/

/-- One row of the raw wide CSV: the five identifier columns plus the raw
string cell of every remaining column, addressed by header name. -/
structure WideRow where
  weekday : String
  line : String
  station_id : Int
  station_name : String
  direction : String
  cells : String → String

/-- One long row straight after `df.melt`. -/
structure LongRaw where
  weekday : String
  line : String
  station_id : Int
  station_name : String
  direction : String
  time_slot_raw : String
  congestion_raw : String
deriving Repr

/-- Source `unpivot_time_columns`: `df.melt(id_vars=…, value_vars=time_cols)`.
pandas emits the melted frame column-major: for each value column in order,
one row per source row. -/
def unpivot_time_columns (df : List WideRow) (time_cols : List String) : List LongRaw :=
  time_cols.flatMap (fun c =>
    df.map (fun r =>
      { weekday := r.weekday, line := r.line, station_id := r.station_id,
        station_name := r.station_name, direction := r.direction,
        time_slot_raw := c, congestion_raw := r.cells c }))

/-! ## etl.py: congestion cleaning -/

/-- An unsigned decimal numeral: digits with at most one dot, at least one
digit overall.  Value of `float(body)` on the accepted forms. -/
def parse_unsigned (body : List Char) : Option ℚ :=
  let ip := body.takeWhile (fun c => c ≠ '.')
  let rest := body.dropWhile (fun c => c ≠ '.')
  match rest with
  | [] =>
    if ip ≠ [] ∧ ip.all Char.isDigit then some ((digitsToNat ip : Nat) : ℚ) else none
  | _ :: fp =>
    if (ip ≠ [] ∨ fp ≠ []) ∧ ip.all Char.isDigit ∧ fp.all Char.isDigit
        ∧ fp.all (fun c => c ≠ '.') then
      some ((digitsToNat ip : ℚ) + (digitsToNat fp : ℚ) / (10 : ℚ) ^ fp.length)
    else none

/-- Pandas `pd.to_numeric(…, errors='coerce')` on a single cell, restricted to plain
signed decimals; any other content coerces to NaN (`none`). -/
def to_numeric (s : String) : Option ℚ :=
  match s.data with
  | '-' :: body => (parse_unsigned body).map (fun q => -q)
  | '+' :: body => parse_unsigned body
  | body => parse_unsigned body

/-- Long row after `clean_congestion_values` added the parsed `congestion`. -/
structure LongClean extends LongRaw where
  congestion : Option ℚ
deriving Repr

/-- Source `clean_congestion_values`: strip whitespace from the raw cell, then
coerce to numeric; failures become NaN.  The NaN count is only printed. -/
def clean_congestion_values (df : List LongRaw) : List LongClean :=
  df.map (fun r =>
    let stripped := strip r.congestion_raw
    { toLongRaw := { r with congestion_raw := stripped },
      congestion := to_numeric stripped })

/-! ## etl.py: time features and missing flag -/

/-- The nested `get_period` of `add_time_features`, translated branch by
branch.  Hours come from digit parsing, hence `Nat` (`0 <= hour` holds). -/
def get_period (hour : Nat) : String :=
  if hour < 1 then "심야"
  else if 5 ≤ hour ∧ hour < 7 then "새벽"
  else if 7 ≤ hour ∧ hour < 9 then "출근"
  else if 9 ≤ hour ∧ hour < 12 then "오전"
  else if 12 ≤ hour ∧ hour < 18 then "오후"
  else if 18 ≤ hour ∧ hour < 20 then "퇴근"
  else if 20 ≤ hour ∧ hour < 24 then "저녁"
  else "기타"

/-- Dictionary lookup `time_map[x]` (first match; the default branch is
unreachable when `x` came from the mapped columns). -/
def lookup_time (time_map : List (String × String × Nat)) (x : String) : String × Nat :=
  match time_map.find? (fun e => e.1 == x) with
  | some e => e.2
  | none => ("", 0)

/-- Long row after `add_time_features`. -/
structure LongFeat extends LongClean where
  time_slot : String
  time_order : Nat
  hour : Nat
  period : String
deriving Repr

/-- The expression `df['time_slot'].str.split(':').str[0].astype(int)` for one cell. -/
def hour_of (ts : String) : Nat :=
  digitsToNat (ts.data.takeWhile (fun c => c ≠ ':'))

/-- Source `add_time_features`: normalized slot and order via the map, hour from the
slot, period from the hour. -/
def add_time_features (df : List LongClean) (time_map : List (String × String × Nat)) :
    List LongFeat :=
  df.map (fun r =>
    let ts := (lookup_time time_map r.time_slot_raw).1
    let ord := (lookup_time time_map r.time_slot_raw).2
    let h := hour_of ts
    { toLongClean := r, time_slot := ts, time_order := ord, hour := h,
      period := get_period h })

/-- Long row after `handle_missing_values`. -/
structure LongFlag extends LongFeat where
  is_missing : Bool
deriving Repr

/-- Source `handle_missing_values`:
`df['is_missing'] = (df['congestion'] == 0.0) | (df['congestion'].isna())`.
In pandas `NaN == 0.0` is false, so the two disjuncts are exactly
"equals 0.0" and "is NaN". -/
def handle_missing_values (df : List LongFeat) : List LongFlag :=
  df.map (fun r =>
    { toLongFeat := r,
      is_missing := decide (r.congestion = some 0) || decide (r.congestion = none) })

/-! ## etl.py: final column selection, sort, persistence -/

/-- One persisted row, after `rename_columns` and the column selection of
`save_parquet` (identifier columns renamed to English; `time_slot_raw` and
`congestion_raw` dropped). -/
structure LongRecord where
  weekday : String
  line : String
  station_id : Int
  station_name : String
  direction : String
  time_slot : String
  time_order : Nat
  congestion : Option ℚ
  hour : Nat
  period : String
  is_missing : Bool
deriving Repr, DecidableEq

/-- The `cols_to_keep` list of `save_parquet` — the persisted column set. -/
def long_record_cols : List String :=
  ["weekday", "line", "station_id", "station_name", "direction",
   "time_slot", "time_order", "congestion", "hour", "period", "is_missing"]

/-- The sort key of `save_parquet`:
`sort_values(['line', 'station_id', 'weekday', 'direction', 'time_order'])`,
a stable lexicographic comparison. -/
def save_le (a b : LongRecord) : Bool :=
  if a.line ≠ b.line then str_lt a.line b.line
  else if a.station_id ≠ b.station_id then decide (a.station_id < b.station_id)
  else if a.weekday ≠ b.weekday then str_lt a.weekday b.weekday
  else if a.direction ≠ b.direction then str_lt a.direction b.direction
  else decide (a.time_order ≤ b.time_order)

def save_le_rel (a b : LongRecord) : Prop := save_le a b = true

instance : DecidableRel save_le_rel := fun _ _ => inferInstanceAs (Decidable (_ = true))

/-- Source `save_parquet` minus the file I/O: select the persisted columns and sort;
the returned list is what the parquet file holds. -/
def save_parquet (df : List LongFlag) : List LongRecord :=
  let selected := df.map (fun r =>
    { weekday := r.weekday, line := r.line, station_id := r.station_id,
      station_name := r.station_name, direction := r.direction,
      time_slot := r.time_slot, time_order := r.time_order,
      congestion := r.congestion, hour := r.hour, period := r.period,
      is_missing := r.is_missing : LongRecord })
  List.insertionSort save_le_rel selected

/-- The `main` ETL process from the point where the CSV has been decoded:
headers and wide rows in, persisted dataset out.  `Except.error` would model
an aborted batch job; the steps after loading never raise, so the result is
always `Except.ok`.  `validate_data` only prints and is not modelled. -/
def etl_main (headers : List String) (rows : List WideRow) :
    Except String (List LongRecord) :=
  let time_cols := get_time_columns headers
  let time_map := create_time_order_map time_cols
  let df_long := unpivot_time_columns rows time_cols
  let df_c := clean_congestion_values df_long
  let df_f := add_time_features df_c time_map
  let df_m := handle_missing_values df_f
  Except.ok (save_parquet df_m)

/-! ## First claims: unpivot row count (C5) and the period table (C3) -/

/-- C5: the wide-to-long reshaping emits exactly `R × T` long rows — one per
(source row, detected time column) pair; nothing is dropped or deduplicated. -/
theorem unpivot_emits_rows_times_cols (df : List WideRow) (time_cols : List String) :
    (unpivot_time_columns df time_cols).length = df.length * time_cols.length := by
  induction time_cols with
  | nil => simp [unpivot_time_columns]
  | cons c cs ih =>
    have h : unpivot_time_columns df (c :: cs) =
        (df.map (fun r =>
          { weekday := r.weekday, line := r.line, station_id := r.station_id,
            station_name := r.station_name, direction := r.direction,
            time_slot_raw := c, congestion_raw := r.cells c : LongRaw }))
          ++ unpivot_time_columns df cs := by
      simp [unpivot_time_columns]
    rw [h, List.length_append, List.length_map, ih, List.length_cons, Nat.mul_succ]
    omega

/-- Modelled from the spec: the period bucket table of §3 — hour 0 is
late-night (심야), hours 1–4 the unclassified bucket (기타), [5,7) early
morning (새벽), [7,9) morning commute (출근), [9,12) morning (오전),
[12,18) afternoon (오후), [18,20) evening commute (퇴근), [20,24)
evening (저녁). -/
def spec_period (hour : Nat) : String :=
  if hour = 0 then "심야"
  else if hour < 5 then "기타"
  else if hour < 7 then "새벽"
  else if hour < 9 then "출근"
  else if hour < 12 then "오전"
  else if hour < 18 then "오후"
  else if hour < 20 then "퇴근"
  else "저녁"

/-- C3: `period` is a deterministic total function of `hour` that agrees with
the spec's bucket table on every hour of the day; in particular hours 1–4
land in the unclassified bucket, not early morning. -/
theorem get_period_matches_spec (h : Nat) (hh : h < 24) :
    get_period h = spec_period h := by
  revert hh
  revert h
  decide

/-- Witness for C3 at a concrete hour inside the gap. -/
theorem get_period_matches_spec_witness :
    3 < 24 ∧ get_period 3 = spec_period 3 :=
  ⟨by decide, get_period_matches_spec 3 (by decide)⟩

/-! ## data.py: the filter engine -/

/-- Source `filter_data`: the sidebar filters, applied in sequence.  Python
truthiness is translated literally: `None` and the empty string / empty list
are falsy, so they impose no restriction; the weekday sentinel `'전체'`
("all") also imposes none.  A present `time_range` pair is always truthy. -/
def filter_data (df : List LongRecord) (weekday : Option String)
    (lines stations directions : Option (List String))
    (time_range : Option (Nat × Nat)) : List LongRecord :=
  let f1 := match weekday with
    | some w => if w ≠ "" ∧ w ≠ "전체" then df.filter (fun r => r.weekday == w) else df
    | none => df
  let f2 := match lines with
    | some l => if l ≠ [] ∧ l.length > 0 then f1.filter (fun r => l.contains r.line) else f1
    | none => f1
  let f3 := match stations with
    | some l => if l ≠ [] ∧ l.length > 0 then f2.filter (fun r => l.contains r.station_name) else f2
    | none => f2
  let f4 := match directions with
    | some l => if l ≠ [] ∧ l.length > 0 then f3.filter (fun r => l.contains r.direction) else f3
    | none => f3
  match time_range with
  | some lohi => f4.filter (fun r => decide (lohi.1 ≤ r.time_order) && decide (r.time_order ≤ lohi.2))
  | none => f4

/-- C4: passing an empty `lines` list is the same as omitting `lines`, for
every dataset and every combination of the other filter arguments; and the
same holds for `directions` (the "empty means no restriction" contract). -/
theorem filter_data_empty_list_no_restriction (df : List LongRecord)
    (weekday : Option String) (lines stations directions : Option (List String))
    (time_range : Option (Nat × Nat)) :
    filter_data df weekday (some []) stations directions time_range =
      filter_data df weekday none stations directions time_range
    ∧ filter_data df weekday lines stations (some []) time_range =
      filter_data df weekday lines stations none time_range := by
  constructor <;> rfl

/-! ## metrics.py: numeric helpers -/

def rat_le_rel (a b : ℚ) : Prop := a ≤ b

instance : DecidableRel rat_le_rel := fun a b => inferInstanceAs (Decidable (a ≤ b))

/-- Pandas `Series.mean()` over the non-NaN values. -/
def meanQ (xs : List ℚ) : ℚ := xs.sum / (xs.length : ℚ)

/-- Pandas `Series.median()` over the non-NaN values: middle of the sorted values,
or the average of the two middle ones. -/
def medianQ (xs : List ℚ) : ℚ :=
  let s := List.insertionSort rat_le_rel xs
  if xs.length % 2 = 1 then s.getD (xs.length / 2) 0
  else (s.getD (xs.length / 2 - 1) 0 + s.getD (xs.length / 2) 0) / 2

/-- Pandas `Series.std()` uses the sample convention (`ddof=1`): the sum of squared
deviations divided by `n - 1`.  With `n ≤ 1` that division is `0/0`, which is
NaN in floating point; `none` encodes it.  The standard deviation itself is
the square root of the value modelled here; taking the square root changes
neither NaN-ness nor zero-ness, which is all the claims rely on. -/
def stdQ (xs : List ℚ) : Option ℚ :=
  if xs.length - 1 = 0 then none
  else some ((xs.map (fun x => (x - meanQ xs) ^ 2)).sum / ((xs.length - 1 : Nat) : ℚ))

/-- Pandas `Series.min()` over the non-NaN values (0 stands for the NaN returned on
an empty series, a case the callers below short-circuit away). -/
def minQ (xs : List ℚ) : ℚ :=
  match xs with
  | [] => 0
  | x :: t => t.foldl min x

/-- Pandas `Series.max()` over the non-NaN values, same conventions as `minQ`. -/
def maxQ (xs : List ℚ) : ℚ :=
  match xs with
  | [] => 0
  | x :: t => t.foldl max x

/-! ## metrics.py: get_congestion_stats -/

/-- The dict returned by `get_congestion_stats`; `std` is the squared
standard deviation as in `stdQ`, with `none` for NaN. -/
structure CongestionStats where
  count : Nat
  mean : ℚ
  median : ℚ
  std : Option ℚ
  min : ℚ
  max : ℚ
  missing_pct : ℚ
deriving Repr, DecidableEq

/-- The sentinel dict returned when no valid rows remain. -/
def zero_stats : CongestionStats :=
  { count := 0, mean := 0, median := 0, std := some 0, min := 0, max := 0,
    missing_pct := 100 }

/-- Source `get_congestion_stats`: drop missing rows; on an empty valid subset
return the zero sentinel; otherwise aggregate the valid congestion values,
with `missing_pct` measured against the whole input view. -/
def get_congestion_stats (df : List LongRecord) : CongestionStats :=
  let valid := df.filter (fun r => !r.is_missing)
  if valid.length = 0 then zero_stats
  else
    let congestion := valid.filterMap (fun r => r.congestion)
    { count := valid.length, mean := meanQ congestion, median := medianQ congestion,
      std := stdQ congestion, min := minQ congestion, max := maxQ congestion,
      missing_pct := (((df.filter (fun r => r.is_missing)).length : Nat) : ℚ)
        / ((df.length : Nat) : ℚ) * 100 }

/-- C6: `missing_pct` is the missing-row count over the total row count of
the original view, times 100 — not relative to the valid subset — and a view
whose valid subset is empty gets the all-zero sentinel with
`missing_pct = 100`. -/
theorem stats_missing_pct_against_total (df : List LongRecord) :
    ((df.filter (fun r => !r.is_missing)).length = 0 →
      get_congestion_stats df = zero_stats)
    ∧ ((df.filter (fun r => !r.is_missing)).length ≠ 0 →
      (get_congestion_stats df).missing_pct =
        ((df.filter (fun r => r.is_missing)).length : ℚ) / (df.length : ℚ) * 100) := by
  constructor
  · intro h
    simp [get_congestion_stats, h]
  · intro h
    simp [get_congestion_stats, h]

/-- A sample persisted row used by concrete examples. -/
def mk_rec (cong : Option ℚ) (miss : Bool) (ord : Nat) : LongRecord :=
  { weekday := "평일", line := "2호선", station_id := 201, station_name := "강남",
    direction := "상선", time_slot := "05:30", time_order := ord,
    congestion := cong, hour := 5, period := "새벽", is_missing := miss }

/-- A ten-row view with exactly three missing rows. -/
def view10 : List LongRecord :=
  [mk_rec (some 10) false 0, mk_rec (some 20) false 1, mk_rec (some 30) false 2,
   mk_rec (some 40) false 3, mk_rec (some 50) false 4, mk_rec (some 60) false 5,
   mk_rec (some 70) false 6, mk_rec (some 0) true 7, mk_rec none true 8,
   mk_rec none true 9]

/-- A view whose valid subset is empty. -/
def view_all_missing : List LongRecord :=
  [mk_rec (some 0) true 0, mk_rec none true 1]

/-- Witness for C6: the ten-row view with three missing rows yields
`missing_pct = 30` exactly, and the all-missing view the zero sentinel. -/
theorem stats_missing_pct_against_total_witness :
    (view10.filter (fun r => !r.is_missing)).length ≠ 0
    ∧ (get_congestion_stats view10).missing_pct = 30
    ∧ (view_all_missing.filter (fun r => !r.is_missing)).length = 0
    ∧ get_congestion_stats view_all_missing = zero_stats := by
  refine ⟨by decide, ?_, by decide, (stats_missing_pct_against_total view_all_missing).1 (by decide)⟩
  have h := (stats_missing_pct_against_total view10).2 (by decide)
  have h3 : (view10.filter (fun r => r.is_missing)).length = 3 := by decide
  have h10 : view10.length = 10 := by decide
  rw [h, h3, h10]
  norm_num

/-- C10: on a view whose valid subset has exactly one row, the `std` field is
NaN (`none`) — the sample (`ddof=1`) deviation divides by zero — rather than
`0.0`. -/
theorem stats_std_nan_on_single_valid_row (df : List LongRecord)
    (h : (df.filter (fun r => !r.is_missing)).length = 1) :
    (get_congestion_stats df).std = none := by
  unfold get_congestion_stats
  rw [if_neg (by rw [h]; exact one_ne_zero)]
  have hlen : ((df.filter (fun r => !r.is_missing)).filterMap
      (fun r => r.congestion)).length ≤ 1 := by
    calc ((df.filter (fun r => !r.is_missing)).filterMap (fun r => r.congestion)).length
        ≤ (df.filter (fun r => !r.is_missing)).length := List.length_filterMap_le _ _
      _ = 1 := h
  simp only [stdQ]
  rw [if_pos (Nat.sub_eq_zero_of_le hlen)]

/-- A view with exactly one valid row. -/
def view_single_valid : List LongRecord :=
  [mk_rec (some 42) false 0, mk_rec (some 0) true 1, mk_rec none true 2]

/-- Witness for C10 on a concrete three-row view with one valid row. -/
theorem stats_std_nan_on_single_valid_row_witness :
    (view_single_valid.filter (fun r => !r.is_missing)).length = 1
    ∧ (get_congestion_stats view_single_valid).std = none :=
  ⟨by decide, stats_std_nan_on_single_valid_row view_single_valid (by decide)⟩

/-! ## metrics.py: get_top_n_stations -/

/-- Lexicographic order on the (station_name, line) group keys, as the
sorted MultiIndex that `groupby(sort=True)` produces. -/
def pair_le (a b : String × String) : Bool :=
  str_lt a.1 b.1 || (a.1 == b.1 && str_le a.2 b.2)

def pair_le_rel (a b : String × String) : Prop := pair_le a b = true

instance : DecidableRel pair_le_rel := fun _ _ => inferInstanceAs (Decidable (_ = true))

/-- Descending order on the aggregated value, used by `nlargest`; with a
stable sort, ties keep the group-key order, matching `keep='first'`. -/
def val_ge_rel (a b : String × String × ℚ) : Prop := b.2.2 ≤ a.2.2

instance : DecidableRel val_ge_rel := fun a b => inferInstanceAs (Decidable (b.2.2 ≤ a.2.2))

/-- The string-keyed aggregate dispatch of `get_top_n_stations`: `'max'`,
`'mean'`, `'sum'`, and the final `else` falling back to max.  A group whose
values are all NaN aggregates to NaN under max/mean (encoded `none`, later
dropped exactly as `nlargest` drops NaN) and to `0.0` under sum. -/
def agg_value (aggregate : String) (vals : List ℚ) : Option ℚ :=
  if aggregate = "max" then (if vals.isEmpty then none else some (maxQ vals))
  else if aggregate = "mean" then (if vals.isEmpty then none else some (meanQ vals))
  else if aggregate = "sum" then some vals.sum
  else (if vals.isEmpty then none else some (maxQ vals))

/-- Source `get_top_n_stations`: drop missing rows, short-circuit the empty view,
optionally re-filter by the inclusive time-order range, aggregate congestion
per (station_name, line) group, and take the n largest by value. -/
def get_top_n_stations (df : List LongRecord) (n : Nat)
    (time_range : Option (Nat × Nat)) (aggregate : String) :
    List (String × String × ℚ) :=
  let valid : List LongRecord := df.filter (fun r => !r.is_missing)
  if valid.length = 0 then []
  else
    let valid2 : List LongRecord := match time_range with
      | some lohi => valid.filter (fun r =>
          decide (lohi.1 ≤ r.time_order) && decide (r.time_order ≤ lohi.2))
      | none => valid
    let keys := List.insertionSort pair_le_rel
      ((valid2.map (fun r => (r.station_name, r.line))).dedup)
    let ranking := keys.filterMap (fun k =>
      (agg_value aggregate
          ((valid2.filter (fun r => r.station_name == k.1 && r.line == k.2)).filterMap
            (fun r => r.congestion))).map (fun v => (k.1, k.2, v)))
    (List.insertionSort val_ge_rel ranking).take n

/-- C9: an aggregate string outside max / mean / sum silently falls back to
max — the call returns exactly what `aggregate='max'` returns, for every
view, n and time range. -/
theorem top_n_unknown_aggregate_is_max (df : List LongRecord) (n : Nat)
    (time_range : Option (Nat × Nat)) (aggregate : String)
    (h1 : aggregate ≠ "max") (h2 : aggregate ≠ "mean") (h3 : aggregate ≠ "sum") :
    get_top_n_stations df n time_range aggregate =
      get_top_n_stations df n time_range "max" := by
  have hagg : agg_value aggregate = agg_value "max" := by
    funext vals
    simp [agg_value, h1, h2, h3]
  simp only [get_top_n_stations, hagg]

/-- Witness for C9: `aggregate='median'` on a concrete view equals
`aggregate='max'`. -/
theorem top_n_unknown_aggregate_is_max_witness :
    (("median" : String) ≠ "max" ∧ ("median" : String) ≠ "mean"
      ∧ ("median" : String) ≠ "sum")
    ∧ get_top_n_stations view10 3 none "median" =
        get_top_n_stations view10 3 none "max" :=
  ⟨⟨by decide, by decide, by decide⟩,
    top_n_unknown_aggregate_is_max view10 3 none "median"
      (by decide) (by decide) (by decide)⟩

/-! ## C1: zero detected time columns -/

/-- C1 (amended): when zero time columns are detected the batch does not
abort — the remaining steps all run on the empty melt result and an empty
dataset is persisted. -/
theorem etl_zero_time_columns_persists_empty (headers : List String)
    (rows : List WideRow) (h : get_time_columns headers = []) :
    etl_main headers rows = Except.ok [] := by
  unfold etl_main
  rw [h]
  rfl

/-- A header list with the five identifier columns and no time column. -/
def c1_headers : List String := ["요일구분", "호선", "역번호", "출발역", "상하구분"]

def c1_rows : List WideRow :=
  [{ weekday := "평일", line := "2호선", station_id := 201, station_name := "강남",
     direction := "상선", cells := fun _ => "34" }]

def c1_rows2 : List WideRow :=
  [{ weekday := "평일", line := "2호선", station_id := 201, station_name := "강남",
     direction := "상선", cells := fun _ => "34" },
   { weekday := "토요일", line := "3호선", station_id := 309, station_name := "압구정",
     direction := "하선", cells := fun _ => "7" }]

/-- Counterexample to C1 as stated: on a source whose header has zero time
columns the job does not abort with an error — it completes and persists a
(empty) dataset. -/
theorem etl_zero_time_columns_counterexample :
    get_time_columns c1_headers = [] ∧ etl_main c1_headers c1_rows = Except.ok [] :=
  ⟨rfl, rfl⟩

/-- Witness for the amended C1 on a two-row source. -/
theorem etl_zero_time_columns_persists_empty_witness :
    get_time_columns c1_headers = [] ∧ etl_main c1_headers c1_rows2 = Except.ok [] :=
  ⟨rfl, etl_zero_time_columns_persists_empty c1_headers c1_rows2 rfl⟩

/-! ## C2: the missing flag -/

/-- C2: in every row the ETL persists, `is_missing` holds exactly when the
parsed congestion is absent (the stripped cell was not numeric) or equals
0.0. -/
theorem is_missing_iff_absent_or_zero (headers : List String) (rows : List WideRow)
    (out : List LongRecord) (r : LongRecord)
    (hout : etl_main headers rows = Except.ok out) (hr : r ∈ out) :
    r.is_missing = true ↔ (r.congestion = none ∨ r.congestion = some 0) := by
  unfold etl_main at hout
  injection hout with hout
  subst hout
  simp only [save_parquet] at hr
  rw [List.Perm.mem_iff (List.perm_insertionSort _ _)] at hr
  obtain ⟨f, hf, hproj⟩ := List.mem_map.mp hr
  obtain ⟨g, hg, hflag⟩ := List.mem_map.mp hf
  subst hproj
  subst hflag
  simp [handle_missing_values, Bool.or_eq_true, decide_eq_true_eq, or_comm]

/-- Headers with one time column. -/
def c2_headers : List String :=
  ["요일구분", "호선", "역번호", "출발역", "상하구분", "5시30분"]

def c2_rows : List WideRow :=
  [{ weekday := "평일", line := "2호선", station_id := 201, station_name := "강남",
     direction := "상선", cells := fun _ => "0" }]

/-- The single long record the pipeline produces from `c2_rows`: the cell
parses to 0.0, so the row is flagged missing. -/
def c2_out_rec : LongRecord :=
  { weekday := "평일", line := "2호선", station_id := 201, station_name := "강남",
    direction := "상선", time_slot := "05:30", time_order := 0,
    congestion := some 0, hour := 5, period := "새벽", is_missing := true }

/-- Witness for C2 on a one-cell source whose congestion cell is `"0"`. -/
theorem is_missing_iff_absent_or_zero_witness :
    etl_main c2_headers c2_rows = Except.ok [c2_out_rec]
    ∧ (c2_out_rec.is_missing = true ↔
        (c2_out_rec.congestion = none ∨ c2_out_rec.congestion = some 0)) :=
  ⟨rfl, is_missing_iff_absent_or_zero c2_headers c2_rows [c2_out_rec] c2_out_rec rfl
    (List.mem_singleton.mpr rfl)⟩

/-! ## data.py: prepare_download_data (C8) -/

/-- One exported row: the `cols` selection of `prepare_download_data`.
Besides the internal-only `is_missing` and `station_id`, the selection also
drops `time_order`. -/
structure DownloadRecord where
  weekday : String
  line : String
  station_name : String
  direction : String
  time_slot : String
  congestion : Option ℚ
  hour : Nat
  period : String
deriving Repr, DecidableEq

/-- The `cols` list of `prepare_download_data`, in source order. -/
def download_cols : List String :=
  ["weekday", "line", "station_name", "direction", "time_slot",
   "congestion", "hour", "period"]

def download_proj (r : LongRecord) : DownloadRecord :=
  { weekday := r.weekday, line := r.line, station_name := r.station_name,
    direction := r.direction, time_slot := r.time_slot,
    congestion := r.congestion, hour := r.hour, period := r.period }

/-- The sort key of `prepare_download_data`:
`sort_values(['line', 'station_name', 'weekday', 'direction', 'time_slot'])`,
lexicographic over the five string columns. -/
def download_key (r : DownloadRecord) :
    Lex (String × Lex (String × Lex (String × Lex (String × String)))) :=
  toLex (r.line, toLex (r.station_name, toLex (r.weekday,
    toLex (r.direction, r.time_slot))))

def download_le (a b : DownloadRecord) : Prop := download_key a ≤ download_key b

instance : DecidableRel download_le :=
  fun a b => inferInstanceAs (Decidable (download_key a ≤ download_key b))

instance : IsTotal DownloadRecord download_le :=
  ⟨fun a b => le_total (download_key a) (download_key b)⟩

instance : IsTrans DownloadRecord download_le :=
  ⟨fun _ _ _ h1 h2 => le_trans h1 h2⟩

/-- Source `prepare_download_data`: project the export columns, then sort. -/
def prepare_download_data (df : List LongRecord) : List DownloadRecord :=
  List.insertionSort download_le (df.map download_proj)

/-- Counterexample to C8 as stated: the export does not keep every
`LongRecord` field other than `is_missing` and `station_id` — `time_order`
would then be kept, but the selected column list omits it. -/
theorem download_drops_only_internal_counterexample :
    download_cols ≠ long_record_cols.filter
      (fun c => !(["station_id", "is_missing"].contains c))
    ∧ "time_order" ∈ long_record_cols.filter
      (fun c => !(["station_id", "is_missing"].contains c))
    ∧ "time_order" ∉ download_cols := by
  refine ⟨by decide, by decide, by decide⟩

/-- C8 (amended): the download export is a permutation of the per-row
projection, sorted by (line, station_name, weekday, direction, time_slot),
and the projected column set is the persisted column set minus
`station_id`, `time_order` and `is_missing`. -/
theorem download_view_sorted_projection (df : List LongRecord) :
    (prepare_download_data df).Perm (df.map download_proj)
    ∧ List.Sorted download_le (prepare_download_data df)
    ∧ download_cols = long_record_cols.filter
        (fun c => !(["station_id", "time_order", "is_missing"].contains c)) :=
  ⟨List.perm_insertionSort _ _, List.sorted_insertionSort _ _, by decide⟩

/-! ## metrics.py: get_average_congestion_by_period (C7) -/

/-- The canonical `period_order` list of `get_average_congestion_by_period`. -/
def period_order : List String :=
  ["새벽", "출근", "오전", "오후", "퇴근", "저녁", "심야"]

/-- The code `pd.Categorical` assigns to a label: its position in the
categories list, or NaN (`none`) when the label is not a category. -/
def index_in : List String → String → Option Nat
  | [], _ => none
  | x :: t, p => if x = p then some 0 else (index_in t p).map (· + 1)

/-- Order on category codes used by `sort_values` on a categorical column:
codes ascending, NaN last (the default `na_position='last'`). -/
def code_le (a b : Option Nat) : Bool :=
  match a, b with
  | some i, some j => decide (i ≤ j)
  | some _, none => true
  | none, some _ => false
  | none, none => true

def coded_le_rel (a b : Option Nat × String × ℚ) : Prop := code_le a.1 b.1 = true

instance : DecidableRel coded_le_rel := fun _ _ => inferInstanceAs (Decidable (_ = true))

/-- Source `get_average_congestion_by_period`: drop missing rows, short-circuit the
empty view, group by `period` (groupby sorts its keys), take the group means,
convert the labels to categorical codes over `period_order` (labels outside
it become NaN), and stably sort by code with NaN last.  The final map reads
the sorted rows back: a row whose code is NaN carries a NaN (`none`) period
label. -/
def get_average_congestion_by_period (df : List LongRecord) :
    List (Option String × ℚ) :=
  let valid : List LongRecord := df.filter (fun r => !r.is_missing)
  if valid.length = 0 then []
  else
    let periods : List String :=
      List.insertionSort str_le_rel ((valid.map (fun r => r.period)).dedup)
    let period_avg : List (String × ℚ) := periods.map (fun p =>
      (p, meanQ ((valid.filter (fun r => r.period == p)).filterMap
        (fun r => r.congestion))))
    let coded : List (Option Nat × String × ℚ) :=
      period_avg.map (fun pv => (index_in period_order pv.1, pv))
    let sorted := List.insertionSort coded_le_rel coded
    sorted.map (fun cpv => (cpv.1.map (fun _ => cpv.2.1), cpv.2.2))

/-- The distinct periods occurring among the valid rows of a view. -/
def valid_periods (df : List LongRecord) : List String :=
  ((df.filter (fun r => !r.is_missing)).map (fun r => r.period)).dedup

/-- Mean congestion of the valid rows of one period group. -/
def period_mean (df : List LongRecord) (p : String) : ℚ :=
  meanQ (((df.filter (fun r => !r.is_missing)).filter
    (fun r => r.period == p)).filterMap (fun r => r.congestion))

/-- A two-row view with one canonical-period row and one row in the
unclassified period (hour 2). -/
def c7_view : List LongRecord :=
  [mk_rec (some 30) false 0,
   { weekday := "평일", line := "2호선", station_id := 201, station_name := "강남",
     direction := "상선", time_slot := "02:00", time_order := 1,
     congestion := some 50, hour := 2, period := "기타", is_missing := false }]

/-- Counterexample to C7 as stated: the unclassified period is not excluded
from the ordered output — its group survives as a final row whose period
label is NaN (`none`). -/
theorem period_average_keeps_other_counterexample :
    get_average_congestion_by_period c7_view = [(some "새벽", 30), (none, 50)] := by
  have h : get_average_congestion_by_period c7_view =
      [(some "새벽", meanQ [30]), (none, meanQ [50])] := rfl
  rw [h]
  norm_num [meanQ]

/-! ## Helper lemmas for the categorical sort -/

theorem code_le_trans (a b c : Option Nat) (h1 : code_le a b = true)
    (h2 : code_le b c = true) : code_le a c = true := by
  cases a <;> cases b <;> cases c <;> simp_all [code_le]
  omega

theorem code_le_total (a b : Option Nat) :
    code_le a b = true ∨ code_le b a = true := by
  cases a <;> cases b <;> simp [code_le]
  omega

instance : IsTrans (Option Nat × String × ℚ) coded_le_rel :=
  ⟨fun a b c h1 h2 => code_le_trans a.1 b.1 c.1 h1 h2⟩

instance : IsTotal (Option Nat × String × ℚ) coded_le_rel :=
  ⟨fun a b => code_le_total a.1 b.1⟩

theorem index_in_isSome_of_mem (l : List String) (p : String) (hp : p ∈ l) :
    ∃ i, index_in l p = some i := by
  induction l with
  | nil => simp at hp
  | cons x t ih =>
    simp only [index_in]
    by_cases hxp : x = p
    · exact ⟨0, by simp [hxp]⟩
    · have hpt : p ∈ t := by
        rcases List.mem_cons.mp hp with h | h
        · exact absurd h.symm hxp
        · exact h
      obtain ⟨i, hi⟩ := ih hpt
      exact ⟨i + 1, by simp [hxp, hi]⟩

theorem not_mem_of_index_in_eq_none (l : List String) (p : String)
    (h : index_in l p = none) : p ∉ l := by
  intro hp
  obtain ⟨i, hi⟩ := index_in_isSome_of_mem l p hp
  rw [hi] at h
  exact Option.noConfusion h

theorem index_in_inj (l : List String) (p q : String) (i : Nat)
    (hp : index_in l p = some i) (hq : index_in l q = some i) : p = q := by
  induction l generalizing i with
  | nil => simp [index_in] at hp
  | cons x t ih =>
    simp only [index_in] at hp hq
    by_cases hxp : x = p <;> by_cases hxq : x = q
    · rw [← hxp, hxq]
    · rw [if_pos hxp] at hp
      rw [if_neg hxq] at hq
      obtain ⟨j, hj, hji⟩ := Option.map_eq_some'.mp hq
      injection hp with hp
      omega
    · rw [if_neg hxp] at hp
      rw [if_pos hxq] at hq
      obtain ⟨j, hj, hji⟩ := Option.map_eq_some'.mp hp
      injection hq with hq
      omega
    · rw [if_neg hxp] at hp
      rw [if_neg hxq] at hq
      obtain ⟨j, hj, hji⟩ := Option.map_eq_some'.mp hp
      obtain ⟨k, hk, hki⟩ := Option.map_eq_some'.mp hq
      have hjk : j = k := by omega
      exact ih (i := j) hj (by rw [hjk]; exact hk)

/-- Two lists that are permutations of each other and both sorted by a
relation antisymmetric on their elements are equal. -/
theorem sorted_perm_eq {α : Type _} {r : α → α → Prop} :
    ∀ (l₁ l₂ : List α), l₁.Perm l₂ → l₁.Pairwise r → l₂.Pairwise r →
      (∀ a ∈ l₁, ∀ b ∈ l₁, r a b → r b a → a = b) → l₁ = l₂ := by
  intro l₁
  induction l₁ with
  | nil =>
    intro l₂ p _ _ _
    exact (p.symm.eq_nil).symm
  | cons a t ih =>
    intro l₂ p s₁ s₂ anti
    cases l₂ with
    | nil => exact absurd p.eq_nil (by simp)
    | cons b u =>
      have hbmem : b ∈ a :: t := p.symm.subset (List.mem_cons_self b u)
      have hamem : a ∈ b :: u := p.subset (List.mem_cons_self a t)
      have hab : a = b := by
        rcases List.mem_cons.mp hbmem with h | hbt
        · exact h.symm
        · rcases List.mem_cons.mp hamem with h | hau
          · exact h
          · exact anti a (List.mem_cons_self a t) b hbmem
              (List.rel_of_pairwise_cons s₁ hbt) (List.rel_of_pairwise_cons s₂ hau)
      subst hab
      have ht : t = u := ih u p.cons_inv (List.Pairwise.of_cons s₁)
        (List.Pairwise.of_cons s₂)
        (fun x hx y hy hxy hyx =>
          anti x (List.mem_cons_of_mem a hx) y (List.mem_cons_of_mem a hy) hxy hyx)
      rw [ht]

/-- The categorical sort of the coded period rows, solved in closed form:
the canonical periods present, in `period_order` order, followed by the
non-canonical group (necessarily the `"기타"` bucket). -/
theorem insertionSort_coded_eq (M : String → ℚ) (periods : List String)
    (hnd : periods.Nodup)
    (hcl : ∀ p ∈ periods, p ∈ period_order ∨ p = "기타") :
    List.insertionSort coded_le_rel
        ((periods.map (fun p => (p, M p))).map
          (fun pv => (index_in period_order pv.1, pv)))
      = (period_order.filter (fun p => decide (p ∈ periods))).map
          (fun p => (index_in period_order p, p, M p))
        ++ (if "기타" ∈ periods then
            [(index_in period_order "기타", "기타", M "기타")] else []) := by
  rw [List.map_map]
  set F : String → Option Nat × String × ℚ :=
    fun p => (index_in period_order p, p, M p) with hF
  have hperm : periods.Perm
      (period_order.filter (fun p => decide (p ∈ periods))
        ++ (if "기타" ∈ periods then ["기타"] else [])) := by
    have hnd2 : (period_order.filter (fun p => decide (p ∈ periods))
        ++ (if "기타" ∈ periods then ["기타"] else [])).Nodup := by
      apply List.Nodup.append
      · exact List.Nodup.filter _ (by decide)
      · split
        · exact List.nodup_singleton _
        · exact List.nodup_nil
      · intro x hx1 hx2
        have hxp : x ∈ period_order := (List.mem_filter.mp hx1).1
        have hxe : x = "기타" := by
          by_cases hc : "기타" ∈ periods
          · rw [if_pos hc] at hx2
            exact List.mem_singleton.mp hx2
          · rw [if_neg hc] at hx2
            simp at hx2
        subst hxe
        revert hxp
        decide
    rw [List.perm_ext_iff_of_nodup hnd hnd2]
    intro a
    constructor
    · intro ha
      rcases hcl a ha with hmem | heq
      · exact List.mem_append_left _ (List.mem_filter.mpr ⟨hmem, by simpa using ha⟩)
      · subst heq
        refine List.mem_append_right _ ?_
        rw [if_pos ha]
        exact List.mem_singleton.mpr rfl
    · intro ha
      rcases List.mem_append.mp ha with h | h
      · exact of_decide_eq_true (List.mem_filter.mp h).2
      · by_cases hc : "기타" ∈ periods
        · rw [if_pos hc] at h
          rw [List.mem_singleton.mp h]
          exact hc
        · rw [if_neg hc] at h
          simp at h
  have hif : ((if "기타" ∈ periods then ["기타"] else []).map F)
      = (if "기타" ∈ periods then [F "기타"] else []) := by
    split <;> rfl
  refine sorted_perm_eq (r := coded_le_rel) _ _ ?_ ?_ ?_ ?_
  · refine (List.perm_insertionSort _ _).trans ?_
    have := hperm.map F
    rw [List.map_append, hif] at this
    exact this
  · exact List.sorted_insertionSort _ _
  · rw [List.pairwise_append]
    refine ⟨?_, ?_, ?_⟩
    · rw [List.pairwise_map]
      apply List.Pairwise.filter
      exact (by decide : List.Pairwise (fun p q =>
        code_le (index_in period_order p) (index_in period_order q) = true) period_order)
    · split
      · exact List.pairwise_singleton _ _
      · exact List.Pairwise.nil
    · intro x hx y hy
      obtain ⟨p, hp, rfl⟩ := List.mem_map.mp hx
      have hpo : p ∈ period_order := (List.mem_filter.mp hp).1
      obtain ⟨i, hi⟩ := index_in_isSome_of_mem _ _ hpo
      have hy2 : y = F "기타" := by
        by_cases hc : "기타" ∈ periods
        · rw [if_pos hc] at hy
          exact List.mem_singleton.mp hy
        · rw [if_neg hc] at hy
          simp at hy
      subst hy2
      show code_le (index_in period_order p) (index_in period_order "기타") = true
      rw [hi]
      rfl
  · intro a ha b hb hab hba
    have ha2 : a ∈ periods.map F := (List.perm_insertionSort _ _).mem_iff.mp ha
    have hb2 : b ∈ periods.map F := (List.perm_insertionSort _ _).mem_iff.mp hb
    obtain ⟨p, hp, rfl⟩ := List.mem_map.mp ha2
    obtain ⟨q, hq, rfl⟩ := List.mem_map.mp hb2
    have hab2 : code_le (index_in period_order p) (index_in period_order q) = true := hab
    have hba2 : code_le (index_in period_order q) (index_in period_order p) = true := hba
    rcases hip : index_in period_order p with _ | i
    · rcases hiq : index_in period_order q with _ | j
      · have hp2 : p = "기타" := by
          rcases hcl p hp with hm | he
          · exact absurd hm (not_mem_of_index_in_eq_none _ _ hip)
          · exact he
        have hq2 : q = "기타" := by
          rcases hcl q hq with hm | he
          · exact absurd hm (not_mem_of_index_in_eq_none _ _ hiq)
          · exact he
        rw [hp2, hq2]
      · exfalso
        rw [hip, hiq] at hab2
        simp [code_le] at hab2
    · rcases hiq : index_in period_order q with _ | j
      · exfalso
        rw [hip, hiq] at hba2
        simp [code_le] at hba2
      · rw [hip, hiq] at hab2 hba2
        simp only [code_le, decide_eq_true_eq] at hab2 hba2
        have hij : i = j := Nat.le_antisymm hab2 hba2
        rw [index_in_inj period_order p q i hip (by rw [hiq, hij])]

/-- C7 (amended): `period_average` excludes missing rows, groups the rest by
period and takes mean congestion, and orders the result by the canonical
period sequence — but the unclassified period is not excluded: its group
stays in the output as a trailing row whose period label is NaN (`none`). -/
theorem period_average_canonical_order_others_last (df : List LongRecord)
    (H : ∀ r ∈ df, r.period ∈ period_order ∨ r.period = "기타") :
    get_average_congestion_by_period df =
      (period_order.filter (fun p => decide (p ∈ valid_periods df))).map
        (fun p => (some p, period_mean df p))
      ++ (if "기타" ∈ valid_periods df then [(none, period_mean df "기타")] else []) := by
  by_cases hv : (df.filter (fun r => !r.is_missing)).length = 0
  · have hnil : df.filter (fun r => !r.is_missing) = [] := List.length_eq_zero.mp hv
    have hvp : valid_periods df = [] := by simp [valid_periods, hnil]
    simp only [get_average_congestion_by_period]
    rw [if_pos hv, hvp]
    simp
  · have hunf : get_average_congestion_by_period df =
        (List.insertionSort coded_le_rel
          (((List.insertionSort str_le_rel (valid_periods df)).map
              (fun p => (p, period_mean df p))).map
            (fun pv => (index_in period_order pv.1, pv)))).map
          (fun cpv => (cpv.1.map (fun _ => cpv.2.1), cpv.2.2)) := by
      simp only [get_average_congestion_by_period]
      rw [if_neg hv]
      rfl
    rw [hunf]
    set periods := List.insertionSort str_le_rel (valid_periods df) with hper
    have hnd : periods.Nodup :=
      ((List.perm_insertionSort _ _).nodup_iff).mpr (List.nodup_dedup _)
    have hmem : ∀ p : String, p ∈ periods ↔ p ∈ valid_periods df :=
      fun p => (List.perm_insertionSort _ _).mem_iff
    have hcl : ∀ p ∈ periods, p ∈ period_order ∨ p = "기타" := by
      intro p hp
      have hp2 : p ∈ valid_periods df := (hmem p).mp hp
      obtain ⟨r, hr, hrp⟩ := List.mem_map.mp (List.mem_dedup.mp hp2)
      have hrd : r ∈ df := (List.mem_filter.mp hr).1
      rcases H r hrd with h | h
      · exact Or.inl (hrp ▸ h)
      · exact Or.inr (hrp ▸ h)
    rw [insertionSort_coded_eq (period_mean df) periods hnd hcl]
    rw [List.map_append, List.map_map]
    congr 1
    · have hfilter : period_order.filter (fun p => decide (p ∈ periods))
          = period_order.filter (fun p => decide (p ∈ valid_periods df)) := by
        apply List.filter_congr
        intro a _
        exact decide_eq_decide.mpr (hmem a)
      rw [hfilter]
      apply List.map_congr_left
      intro p hp
      have hpo : p ∈ period_order := (List.mem_filter.mp hp).1
      obtain ⟨i, hi⟩ := index_in_isSome_of_mem _ _ hpo
      show ((index_in period_order p).map (fun _ => p), period_mean df p)
        = (some p, period_mean df p)
      rw [hi]
      rfl
    · by_cases hc : "기타" ∈ valid_periods df
      · rw [if_pos ((hmem _).mpr hc), if_pos hc]
        rfl
      · rw [if_neg (fun hh => hc ((hmem _).mp hh)), if_neg hc]
        rfl

/-- Witness for the amended C7 on the two-row view: the canonical row comes
first with its label, the unclassified row last with a NaN label. -/
theorem period_average_canonical_order_others_last_witness :
    (∀ r ∈ c7_view, r.period ∈ period_order ∨ r.period = "기타")
    ∧ get_average_congestion_by_period c7_view =
        (period_order.filter (fun p => decide (p ∈ valid_periods c7_view))).map
          (fun p => (some p, period_mean c7_view p))
        ++ (if "기타" ∈ valid_periods c7_view then
            [(none, period_mean c7_view "기타")] else []) :=
  ⟨by decide, period_average_canonical_order_others_last c7_view (by decide)⟩
